import Mathlib

/-!
Shallow embedding of the chat backend (src/backend/src/db.rs and
src/backend/src/main.rs) and verification of the frozen claims about it.

Modelling conventions:
- rfc3339 timestamp strings (compared lexicographically by SQLite's
  ORDER BY) are modelled as naturals; for uniformly formatted rfc3339
  strings this encoding is order-faithful.
- The two DashMaps (online_users, user_sockets) are modelled as
  association lists whose insert replaces any previous binding of the key.
- A session's unbounded mpsc channel is identified by the socket id of
  the connection that created it; outbound traffic is the list of
  (channel, ServerMessage) pairs the dispatcher queues.
- Fallible sqlite writes that the dispatcher branches on are driven by
  boolean oracles in StepInput (createOk for create_user, saveOk for
  save_message); reads of the in-memory store are total.  bcrypt hash and
  verify are opaque function parameters carried in StepInput.
- f64 audio durations are opaque pass-through payload, carried as
  Option Nat; they are never computed with.
-/

namespace Chat

/-! ### Durable store rows (db.rs) -/

/-- Row of the users table (struct DbUser in db.rs). -/
structure DbUser where
  id : String
  username : String
  password_hash : String
  created_at : Nat
  last_seen : Nat
deriving DecidableEq, Repr

/-- Row of the messages table (struct DbMessage in db.rs). -/
structure DbMessage where
  id : String
  from_user_id : String
  to_user_id : String
  content : String
  timestamp : Nat
  read : Bool
  file_data : Option String
  file_name : Option String
  file_type : Option String
  audio_duration : Option Nat
deriving DecidableEq, Repr

/-- Row of the reactions table (struct DbReaction in db.rs). -/
structure Reaction where
  message_id : String
  user_id : String
  emoji : String
deriving DecidableEq, Repr

/-- The sqlite database contents (the three tables created by init_schema). -/
structure Db where
  users : List DbUser
  messages : List DbMessage
  reactions : List Reaction
deriving DecidableEq, Repr

/-! ### Database operations (impl Database in db.rs) -/

/-- Database::get_user_by_username: SELECT ... WHERE username = ?. -/
def get_user_by_username (db : Db) (username : String) : Option DbUser :=
  db.users.find? (fun u => decide (u.username = username))

/-- Database::create_user: INSERT INTO users, created_at = last_seen = now. -/
def create_user (db : Db) (id username password_hash : String) (now : Nat) : Db :=
  { db with users := db.users ++ [⟨id, username, password_hash, now, now⟩] }

/-- Database::update_last_seen: UPDATE users SET last_seen = now WHERE id = ?. -/
def update_last_seen (db : Db) (user_id : String) (now : Nat) : Db :=
  { db with users :=
      db.users.map (fun u => if u.id = user_id then { u with last_seen := now } else u) }

/-- Database::save_message: INSERT INTO messages. -/
def save_message (db : Db) (m : DbMessage) : Db :=
  { db with messages := db.messages ++ [m] }

/-- The WHERE clause shared by get_messages_between_users and
get_message_count_between_users: messages exchanged between the two
identities, in either direction. -/
def convBetween (db : Db) (user1_id user2_id : String) : List DbMessage :=
  db.messages.filter (fun m =>
    decide ((m.from_user_id = user1_id ∧ m.to_user_id = user2_id) ∨
            (m.from_user_id = user2_id ∧ m.to_user_id = user1_id)))

/-- ORDER BY timestamp DESC: newer (larger) timestamps first. -/
def tsDesc (a b : DbMessage) : Prop := b.timestamp ≤ a.timestamp

instance : DecidableRel tsDesc := fun a b =>
  inferInstanceAs (Decidable (b.timestamp ≤ a.timestamp))

instance : IsTotal DbMessage tsDesc :=
  ⟨fun a b => (Nat.le_total a.timestamp b.timestamp).symm⟩

instance : IsTrans DbMessage tsDesc :=
  ⟨fun _ _ _ hab hbc => Nat.le_trans hbc hab⟩

/-- Database::get_messages_between_users: the conversation ordered by
timestamp DESC, then OFFSET ? skips and LIMIT ? truncates. -/
def get_messages_between_users (db : Db) (user1_id user2_id : String)
    (limit offset : Nat) : List DbMessage :=
  (((convBetween db user1_id user2_id).insertionSort tsDesc).drop offset).take limit

/-- Database::get_message_count_between_users: COUNT(*) over the same WHERE. -/
def get_message_count_between_users (db : Db) (user1_id user2_id : String) : Nat :=
  (convBetween db user1_id user2_id).length

/-- Database::mark_message_read: UPDATE messages SET read = 1 WHERE id = ?. -/
def mark_message_read (db : Db) (message_id : String) : Db :=
  { db with messages :=
      db.messages.map (fun m => if m.id = message_id then { m with read := true } else m) }

/-- Database::add_reaction: INSERT OR REPLACE keyed by (message_id, user_id) -
the conflicting row, if any, is deleted and the new row stored. -/
def add_reaction (db : Db) (message_id user_id emoji : String) : Db :=
  { db with reactions :=
      db.reactions.filter (fun r =>
          decide (¬(r.message_id = message_id ∧ r.user_id = user_id))) ++
        [⟨message_id, user_id, emoji⟩] }

/-- Database::remove_reaction: DELETE WHERE message_id = ? AND user_id = ?. -/
def remove_reaction (db : Db) (message_id user_id : String) : Db :=
  { db with reactions :=
      db.reactions.filter (fun r =>
          decide (¬(r.message_id = message_id ∧ r.user_id = user_id))) }

/-- Database::get_reactions: the rows for one message as the graph of the
user -> emoji HashMap the source builds from them. -/
def get_reactions (db : Db) (message_id : String) : List (String × String) :=
  (db.reactions.filter (fun r => decide (r.message_id = message_id))).map
    (fun r => (r.user_id, r.emoji))

/-- Lookup in the nested map returned by Database::get_reactions_batch: the
batch query groups rows by message id, so a message id maps to its rows
exactly when it has at least one reaction row. -/
def batchLookup (db : Db) (message_id : String) : Option (List (String × String)) :=
  let rows := get_reactions db message_id
  if rows.isEmpty then none else some rows

/-! ### In-memory state and protocol types (main.rs) -/

/-- struct User in main.rs (the PresenceRecord). -/
structure User where
  id : String
  username : String
  online : Bool
  last_seen : Nat
deriving DecidableEq, Repr

/-- struct ChatMessage in main.rs. -/
structure ChatMessage where
  id : String
  from_user_id : String
  to_user_id : String
  content : String
  timestamp : Nat
  read : Bool
  file_data : Option String
  file_name : Option String
  file_type : Option String
  audio_duration : Option Nat
  reactions : List (String × String)
deriving DecidableEq, Repr

/-- enum ClientMessage in main.rs (inbound events). -/
inductive ClientMessage where
  | Register (username password : String)
  | Login (username : String) (password : Option String)
  | SendMessage (to_user_id content : String)
      (file_data file_name file_type : Option String) (audio_duration : Option Nat)
  | MarkAsRead (message_id : String)
  | Typing (to_user_id : String) (is_typing : Bool)
  | GetOnlineUsers
  | GetMessageHistory (other_user_id : String) (limit offset : Option Nat)
  | AddReaction (message_id emoji : String)
  | RemoveReaction (message_id : String)
  | CallOffer (to_user_id offer : String)
  | CallAnswer (to_user_id answer : String)
  | IceCandidate (to_user_id candidate : String)
  | CallEnd (to_user_id : String)
deriving DecidableEq, Repr

/-- enum ServerMessage in main.rs (outbound events). -/
inductive ServerMessage where
  | LoginSuccess (user : User)
  | RegisterSuccess (user : User)
  | AuthError (message : String)
  | UserOnline (user : User)
  | UserOffline (user_id : String)
  | NewMessage (message : ChatMessage)
  | MessageHistory (messages : List ChatMessage) (total_count : Nat) (has_more : Bool)
  | MessageRead (message_id user_id : String)
  | Typing (from_user_id : String) (is_typing : Bool)
  | OnlineUsers (users : List User)
  | Error (message : String)
  | Success (message : String)
  | MessageReaction (message_id user_id : String) (emoji : Option String)
  | CallOffer (from_user_id offer : String)
  | CallAnswer (from_user_id answer : String)
  | IceCandidate (from_user_id candidate : String)
  | CallEnd (from_user_id : String)
deriving DecidableEq, Repr

/-- A session's outbound channel, identified by its connection's socket id. -/
abbrev SockId := Nat

/-- Association-list lookup, mirroring DashMap::get / contains_key. -/
def findA {κ α : Type} [DecidableEq κ] (l : List (κ × α)) (k : κ) : Option α :=
  (l.find? (fun p => decide (p.1 = k))).map Prod.snd

/-- Association-list insert, mirroring DashMap::insert: any previous binding
of the key is replaced by the new one. -/
def insertA {κ α : Type} [DecidableEq κ] (l : List (κ × α)) (k : κ) (v : α) :
    List (κ × α) :=
  (k, v) :: l.filter (fun p => decide (¬(p.1 = k)))

/-- Association-list removal, mirroring DashMap::remove. -/
def removeA {κ α : Type} [DecidableEq κ] (l : List (κ × α)) (k : κ) : List (κ × α) :=
  l.filter (fun p => decide (¬(p.1 = k)))

/-- The shared AppState: the database plus the two DashMaps
(online_users: the Presence Registry, user_sockets: the Socket Directory). -/
structure GState where
  db : Db
  online_users : List (String × User)
  user_sockets : List (String × SockId)
deriving DecidableEq, Repr

/-- Per-event environment of one dispatcher invocation: the fresh
Uuid::new_v4 value, Utc::now, the bcrypt primitives (hash with its
plaintext fallback folded in, verify with its false fallback folded in),
and outcome oracles for the fallible sqlite writes the dispatcher
branches on. -/
structure StepInput where
  freshId : String
  now : Nat
  hash : String → String
  verify : String → String → Bool
  createOk : Bool
  saveOk : Bool

/-- Result of one dispatcher invocation: the new shared state, the
session's new authentication state (current_user_id), and the outbound
events queued to channels. -/
structure StepResult where
  g : GState
  cur : Option String
  out : List (SockId × ServerMessage)
deriving DecidableEq

/-! ### String constants used by the dispatcher (main.rs) -/

def msg_username_exists : String := "Username already exists"
def msg_register_failed : String := "Failed to register user"
def msg_invalid_password : String := "Invalid password"
def msg_user_not_found : String := "User not found"
def msg_create_failed : String := "Failed to create user"
def emptyPassword : String := ""

/-! ### The dispatcher (handle_socket's reader loop, main.rs) -/

/-- struct-to-struct conversion db_message_to_chat_message in main.rs; the
rfc3339 parse of the stored timestamp is the identity in this model. -/
def db_message_to_chat_message (m : DbMessage)
    (reactions : Option (List (String × String))) : ChatMessage :=
  ⟨m.id, m.from_user_id, m.to_user_id, m.content, m.timestamp, m.read,
    m.file_data, m.file_name, m.file_type, m.audio_duration, reactions.getD []⟩

/-- The body of the GetMessageHistory branch: fetch the page (timestamp
DESC), the total count, attach batch-loaded reactions, reverse the page to
chronological order, and compute has_more = (offset + limit) < total. -/
def messageHistoryResponse (db : Db) (user_id other_user_id : String)
    (limit offset : Nat) : List ChatMessage × Nat × Bool :=
  let db_messages := get_messages_between_users db user_id other_user_id limit offset
  let total_count := get_message_count_between_users db user_id other_user_id
  let messages :=
    (db_messages.map (fun m => db_message_to_chat_message m (batchLookup db m.id))).reverse
  (messages, total_count, decide (offset + limit < total_count))

/-- The registration/broadcast sequence shared by the three successful
authentication paths (Register, Login, passwordless auto-provision):
insert into online_users and user_sockets, set current_user_id, send the
success event and the online-users snapshot (excluding self) to the
caller, and broadcast UserOnline to every other registered socket. -/
def authSuccess (g : GState) (sid : SockId) (user_id : String) (user : User)
    (success : ServerMessage) : StepResult :=
  let online' := insertA g.online_users user_id user
  let sockets' := insertA g.user_sockets user_id sid
  let others := (online'.filter (fun p => decide (¬(p.2.id = user_id)))).map (fun p => p.2)
  let broadcast := (sockets'.filter (fun p => decide (¬(p.1 = user_id)))).map
    (fun p => (p.2, ServerMessage.UserOnline user))
  ⟨{ g with online_users := online', user_sockets := sockets' }, some user_id,
    (sid, success) :: (sid, ServerMessage.OnlineUsers others) :: broadcast⟩

/-- One dispatcher step of handle_socket's reader loop: interpret a single
decoded ClientMessage given the session's authentication state, producing
the new shared state, the new session state, and the queued outbound
(channel, event) pairs. -/
def step (g : GState) (sid : SockId) (cur : Option String) (inp : StepInput) :
    ClientMessage → StepResult
  | ClientMessage.Register username password =>
    match get_user_by_username g.db username with
    | some _ => ⟨g, cur, [(sid, ServerMessage.AuthError msg_username_exists)]⟩
    | none =>
      if inp.createOk then
        let user_id := inp.freshId
        let db' := create_user g.db user_id username (inp.hash password) inp.now
        authSuccess { g with db := db' } sid user_id ⟨user_id, username, true, inp.now⟩
          (ServerMessage.RegisterSuccess ⟨user_id, username, true, inp.now⟩)
      else ⟨g, cur, [(sid, ServerMessage.AuthError msg_register_failed)]⟩
  | ClientMessage.Login username password =>
    match get_user_by_username g.db username with
    | some db_user =>
      let password_valid :=
        match password with
        | some pwd => inp.verify pwd db_user.password_hash
        | none => true
      if password_valid then
        let r := authSuccess g sid db_user.id ⟨db_user.id, db_user.username, true, inp.now⟩
          (ServerMessage.LoginSuccess ⟨db_user.id, db_user.username, true, inp.now⟩)
        ⟨{ r.g with db := update_last_seen r.g.db db_user.id inp.now }, r.cur, r.out⟩
      else ⟨g, cur, [(sid, ServerMessage.AuthError msg_invalid_password)]⟩
    | none =>
      if password.isNone then
        if inp.createOk then
          let user_id := inp.freshId
          let db' := create_user g.db user_id username (inp.hash emptyPassword) inp.now
          authSuccess { g with db := db' } sid user_id ⟨user_id, username, true, inp.now⟩
            (ServerMessage.LoginSuccess ⟨user_id, username, true, inp.now⟩)
        else ⟨g, cur, [(sid, ServerMessage.AuthError msg_create_failed)]⟩
      else ⟨g, cur, [(sid, ServerMessage.AuthError msg_user_not_found)]⟩
  | ClientMessage.SendMessage to_user_id content file_data file_name file_type audio_duration =>
    match cur with
    | some from_id =>
      let message : ChatMessage :=
        ⟨inp.freshId, from_id, to_user_id, content, inp.now, false,
          file_data, file_name, file_type, audio_duration, []⟩
      let db_msg : DbMessage :=
        ⟨message.id, message.from_user_id, message.to_user_id, message.content,
          message.timestamp, message.read, message.file_data, message.file_name,
          message.file_type, message.audio_duration⟩
      let db' := if inp.saveOk then save_message g.db db_msg else g.db
      let recipient_out :=
        match findA g.user_sockets to_user_id with
        | some ch => [(ch, ServerMessage.NewMessage message)]
        | none => []
      ⟨{ g with db := db' }, cur, recipient_out ++ [(sid, ServerMessage.NewMessage message)]⟩
    | none => ⟨g, cur, []⟩
  | ClientMessage.GetMessageHistory other_user_id limitArg offsetArg =>
    match cur with
    | some user_id =>
      let limit := limitArg.getD 50
      let offset := offsetArg.getD 0
      let r := messageHistoryResponse g.db user_id other_user_id limit offset
      ⟨g, cur, [(sid, ServerMessage.MessageHistory r.1 r.2.1 r.2.2)]⟩
    | none => ⟨g, cur, []⟩
  | ClientMessage.MarkAsRead message_id =>
    let db' := mark_message_read g.db message_id
    match cur with
    | some user_id =>
      ⟨{ g with db := db' }, cur,
        (g.user_sockets.filter (fun p => decide (¬(p.1 = user_id)))).map
          (fun p => (p.2, ServerMessage.MessageRead message_id user_id))⟩
    | none => ⟨{ g with db := db' }, cur, []⟩
  | ClientMessage.Typing to_user_id is_typing =>
    match cur with
    | some from_id =>
      match findA g.user_sockets to_user_id with
      | some ch => ⟨g, cur, [(ch, ServerMessage.Typing from_id is_typing)]⟩
      | none => ⟨g, cur, []⟩
    | none => ⟨g, cur, []⟩
  | ClientMessage.GetOnlineUsers =>
    ⟨g, cur, [(sid, ServerMessage.OnlineUsers (g.online_users.map (fun p => p.2)))]⟩
  | ClientMessage.AddReaction message_id emoji =>
    match cur with
    | some from_id =>
      ⟨{ g with db := add_reaction g.db message_id from_id emoji }, cur,
        g.user_sockets.map
          (fun p => (p.2, ServerMessage.MessageReaction message_id from_id (some emoji)))⟩
    | none => ⟨g, cur, []⟩
  | ClientMessage.RemoveReaction message_id =>
    match cur with
    | some from_id =>
      ⟨{ g with db := remove_reaction g.db message_id from_id }, cur,
        g.user_sockets.map
          (fun p => (p.2, ServerMessage.MessageReaction message_id from_id none))⟩
    | none => ⟨g, cur, []⟩
  | ClientMessage.CallOffer to_user_id offer =>
    match cur with
    | some from_id =>
      match findA g.user_sockets to_user_id with
      | some ch => ⟨g, cur, [(ch, ServerMessage.CallOffer from_id offer)]⟩
      | none => ⟨g, cur, []⟩
    | none => ⟨g, cur, []⟩
  | ClientMessage.CallAnswer to_user_id answer =>
    match cur with
    | some from_id =>
      match findA g.user_sockets to_user_id with
      | some ch => ⟨g, cur, [(ch, ServerMessage.CallAnswer from_id answer)]⟩
      | none => ⟨g, cur, []⟩
    | none => ⟨g, cur, []⟩
  | ClientMessage.IceCandidate to_user_id candidate =>
    match cur with
    | some from_id =>
      match findA g.user_sockets to_user_id with
      | some ch => ⟨g, cur, [(ch, ServerMessage.IceCandidate from_id candidate)]⟩
      | none => ⟨g, cur, []⟩
    | none => ⟨g, cur, []⟩
  | ClientMessage.CallEnd to_user_id =>
    match cur with
    | some from_id =>
      match findA g.user_sockets to_user_id with
      | some ch => ⟨g, cur, [(ch, ServerMessage.CallEnd from_id)]⟩
      | none => ⟨g, cur, []⟩
    | none => ⟨g, cur, []⟩

/-- The disconnect path at the end of handle_socket's reader task: if the
session was authenticated, remove the identity from both registries,
persist last_seen, and broadcast UserOffline to every remaining
registered socket. -/
def disconnect (g : GState) (cur : Option String) (now : Nat) :
    GState × List (SockId × ServerMessage) :=
  match cur with
  | some user_id =>
    let g1 : GState :=
      { db := update_last_seen g.db user_id now,
        online_users := removeA g.online_users user_id,
        user_sockets := removeA g.user_sockets user_id }
    (g1, g1.user_sockets.map (fun p => (p.2, ServerMessage.UserOffline user_id)))
  | none => (g, [])

/-- The GET /api/users endpoint (get_users in main.rs): every durable
account with the online flag derived from online_users membership. -/
def get_users (g : GState) : List User :=
  g.db.users.map (fun u => ⟨u.id, u.username, (findA g.online_users u.id).isSome, u.last_seen⟩)

/-! ### Multi-session traces -/

/-- One inbound frame of a trace: which session (socket) received it, the
decoded event, and that invocation's environment. -/
structure TraceStep where
  sid : SockId
  msg : ClientMessage
  inp : StepInput

/-- Run a list of inbound frames through the dispatcher, tracking each
session's authentication state by socket id; returns the final shared
state, the session states, and every step's outbound events. -/
def runTrace : GState → List (SockId × Option String) → List TraceStep →
    GState × List (SockId × Option String) × List (List (SockId × ServerMessage))
  | g, sess, [] => (g, sess, [])
  | g, sess, t :: rest =>
    let cur := (findA sess t.sid).getD none
    let r := step g t.sid cur t.inp t.msg
    let res := runTrace r.g (insertA sess t.sid r.cur) rest
    (res.1, res.2.1, r.out :: res.2.2)

/-- The identity a successful authentication event in one step's output
authenticated, if any: the user carried by a RegisterSuccess or
LoginSuccess, paired with the channel it was sent to (always the
authenticating session's own channel). -/
def authUser : ServerMessage → Option String
  | ServerMessage.RegisterSuccess u => some u.id
  | ServerMessage.LoginSuccess u => some u.id
  | _ => none

/-- The (identity, channel) installed by a step, observed from its output. -/
def authSuccessOf (out : List (SockId × ServerMessage)) : Option (String × SockId) :=
  out.findSome? (fun p => (authUser p.2).map (fun uid => (uid, p.1)))

/-- Apply one step's observable authentication outcome to a directory:
install the (identity, channel) pair if the step authenticated, else leave
the directory unchanged. -/
def applyAuth (d : List (String × SockId)) : Option (String × SockId) →
    List (String × SockId)
  | some (uid, ch) => insertA d uid ch
  | none => d

/-- Replay only the successful-authentication inserts of a run's outputs
onto a directory: the ghost Socket Directory. -/
def ghostDir : List (List (SockId × ServerMessage)) → List (String × SockId) →
    List (String × SockId)
  | [], d => d
  | out :: rest, d => ghostDir rest (applyAuth d (authSuccessOf out))

/-- The channel installed by the most recent successful authentication for
an identity over a run's outputs (later steps take precedence). -/
def lastAuthChan : List (List (SockId × ServerMessage)) → String → Option SockId
  | [], _ => none
  | out :: rest, uid =>
    match lastAuthChan rest uid with
    | some c => some c
    | none =>
      match authSuccessOf out with
      | some (u, c) => if u = uid then some c else none
      | none => none

/-! ### Derived notions used by the claims -/

/-- The inbound events that the dispatcher ignores outright while the
session is unauthenticated: every variant except Register, Login,
MarkAsRead and GetOnlineUsers (the latter two act even without
authentication, see the C1 analysis). -/
def unauthIgnored : ClientMessage → Bool
  | ClientMessage.SendMessage .. => true
  | ClientMessage.Typing .. => true
  | ClientMessage.GetMessageHistory .. => true
  | ClientMessage.AddReaction .. => true
  | ClientMessage.RemoveReaction .. => true
  | ClientMessage.CallOffer .. => true
  | ClientMessage.CallAnswer .. => true
  | ClientMessage.IceCandidate .. => true
  | ClientMessage.CallEnd .. => true
  | _ => false

/-- The reaction store holds at most one row per (message, user) pair. -/
def ReactionsUnique (db : Db) : Prop :=
  (db.reactions.map (fun r => (r.message_id, r.user_id))).Nodup

/-- The client-driven pagination protocol of claim C5: fetch a page, and
while has_more is reported, fetch again at offset + limit, concatenating
the (already chronologically reversed) pages. Fuel bounds the recursion;
any fuel above the conversation length is enough. -/
def historyLoop (db : Db) (user_id other_user_id : String) (limit : Nat) :
    Nat → Nat → List ChatMessage
  | _, 0 => []
  | offset, fuel + 1 =>
    let r := messageHistoryResponse db user_id other_user_id limit offset
    if r.2.2 then r.1 ++ historyLoop db user_id other_user_id limit (offset + limit) fuel
    else r.1

/-! ### Concrete fixtures used by witnesses and counterexamples -/

def uidA : String := "a1"
def uidB : String := "b1"
def unameA : String := "alice"
def pwP : String := "p1"
def hashH : String := "h1"
def midM : String := "m1"
def midM2 : String := "m2"
def midM3 : String := "m3"
def contentHi : String := "hi"
def emE1 : String := "e1"
def emE2 : String := "e2"
def freshF : String := "f1"

def duA : DbUser := ⟨uidA, unameA, hashH, 0, 0⟩
def mW : DbMessage := ⟨midM, uidA, uidB, contentHi, 1, false, none, none, none, none⟩
def mW2 : DbMessage := ⟨midM2, uidB, uidA, contentHi, 2, false, none, none, none, none⟩
def mW3 : DbMessage := ⟨midM3, uidA, uidB, contentHi, 3, false, none, none, none, none⟩
def dbW : Db := ⟨[duA], [mW], []⟩
def dbW5 : Db := ⟨[duA], [mW, mW2, mW3], []⟩
def uA : User := ⟨uidA, unameA, true, 0⟩
def gW : GState := ⟨dbW, [], []⟩
def gW7 : GState := ⟨dbW, [(uidA, uA)], [(uidA, 0)]⟩
def inpW : StepInput := ⟨freshF, 2, fun _ => emptyPassword, fun _ _ => false, true, true⟩
def inpWF : StepInput := ⟨freshF, 2, fun _ => emptyPassword, fun _ _ => false, true, false⟩
def mR : DbMessage := ⟨midM, uidA, uidB, contentHi, 1, true, none, none, none, none⟩
def gR : GState := ⟨⟨[duA], [mR], []⟩, [], []⟩
def vW7 : User := ⟨uidA, unameA, false, 5⟩
def evW : ClientMessage := ClientMessage.SendMessage uidB contentHi none none none none
def dmW : DbMessage := ⟨freshF, uidA, uidB, contentHi, 2, false, none, none, none, none⟩
def cmW : ChatMessage := ⟨freshF, uidA, uidB, contentHi, 2, false, none, none, none, none, []⟩
def trW : List TraceStep :=
  [⟨0, ClientMessage.Login unameA none, inpW⟩, ⟨1, ClientMessage.Login unameA none, inpW⟩]

/-! ### C5: pagination lemmas -/

theorem mhr_page_ids (db : Db) (u1 u2 : String) (L off : Nat) :
    (messageHistoryResponse db u1 u2 L off).1.map (fun c => c.id) =
      (((((convBetween db u1 u2).insertionSort tsDesc).drop off).take L).map
        (fun m => m.id)).reverse := by
  simp only [messageHistoryResponse]
  rw [List.map_reverse, List.map_map]
  rfl

theorem historyLoop_perm (db : Db) (u1 u2 : String) (L : Nat) (hL : 1 ≤ L) :
    ∀ (fuel off : Nat),
      (convBetween db u1 u2).length ≤ off + fuel * L →
      ((historyLoop db u1 u2 L off fuel).map (fun c => c.id)).Perm
        ((((convBetween db u1 u2).insertionSort tsDesc).drop off).map
          (fun m => m.id)) := by
  intro fuel
  induction fuel with
  | zero =>
    intro off h
    simp only [Nat.zero_mul, Nat.add_zero] at h
    simp only [historyLoop]
    have hnil : (((convBetween db u1 u2).insertionSort tsDesc).drop off) = [] :=
      List.drop_eq_nil_of_le (by rw [List.length_insertionSort]; omega)
    rw [hnil]
    simp
  | succ fuel ih =>
    intro off h
    rw [Nat.succ_mul] at h
    simp only [historyLoop]
    by_cases hmore : off + L < (convBetween db u1 u2).length
    · rw [if_pos (show (messageHistoryResponse db u1 u2 L off).2.2 = true from
        decide_eq_true hmore)]
      rw [List.map_append, mhr_page_ids]
      have hrec := ih (off + L) (by omega)
      have hsplit : ((((convBetween db u1 u2).insertionSort tsDesc).drop off).map
          (fun m => m.id)) =
          (((((convBetween db u1 u2).insertionSort tsDesc).drop off).take L).map
            (fun m => m.id)) ++
          ((((convBetween db u1 u2).insertionSort tsDesc).drop (off + L)).map
            (fun m => m.id)) := by
        rw [← List.map_append]
        congr 1
        rw [show ((convBetween db u1 u2).insertionSort tsDesc).drop (off + L) =
            (((convBetween db u1 u2).insertionSort tsDesc).drop off).drop L from by
          rw [List.drop_drop]]
        exact (List.take_append_drop L _).symm
      rw [hsplit]
      exact List.Perm.append (List.reverse_perm _) hrec
    · rw [if_neg (show ¬((messageHistoryResponse db u1 u2 L off).2.2 = true) from
        fun hc => hmore (of_decide_eq_true hc))]
      rw [mhr_page_ids]
      rw [show (((convBetween db u1 u2).insertionSort tsDesc).drop off).take L =
          ((convBetween db u1 u2).insertionSort tsDesc).drop off from
        List.take_of_length_le (by
          rw [List.length_drop, List.length_insertionSort]; omega)]
      exact List.reverse_perm _

/-! ### Association-list lemmas -/

theorem findA_cons {κ α : Type} [DecidableEq κ] (a : κ × α) (t : List (κ × α)) (k : κ) :
    findA (a :: t) k = if a.1 = k then some a.2 else findA t k := by
  by_cases h : a.1 = k
  · simp [findA, List.find?_cons, h]
  · simp [findA, List.find?_cons, h]

theorem findA_filter_ne {κ α : Type} [DecidableEq κ] (l : List (κ × α)) (k k' : κ)
    (h : k ≠ k') :
    findA (l.filter (fun p => decide (¬(p.1 = k)))) k' = findA l k' := by
  induction l with
  | nil => rfl
  | cons a t ih =>
    rw [List.filter_cons]
    by_cases ha : a.1 = k
    · rw [if_neg (by simp [ha]), findA_cons,
        if_neg (show ¬(a.1 = k') by rw [ha]; exact h)]
      exact ih
    · rw [if_pos (by simp [ha]), findA_cons, findA_cons]
      by_cases hb : a.1 = k'
      · rw [if_pos hb, if_pos hb]
      · rw [if_neg hb, if_neg hb]
        exact ih

theorem findA_insertA {κ α : Type} [DecidableEq κ] (l : List (κ × α)) (k k' : κ) (v : α) :
    findA (insertA l k v) k' = if k = k' then some v else findA l k' := by
  rw [insertA, findA_cons]
  by_cases h : k = k'
  · rw [if_pos h, if_pos h]
  · rw [if_neg h, if_neg h]
    exact findA_filter_ne l k k' h

theorem findA_removeA_self {κ α : Type} [DecidableEq κ] (l : List (κ × α)) (k : κ) :
    findA (removeA l k) k = none := by
  induction l with
  | nil => rfl
  | cons a t ih =>
    rw [removeA, List.filter_cons]
    by_cases ha : a.1 = k
    · rw [if_neg (by simp [ha])]
      exact ih
    · rw [if_pos (by simp [ha]), findA_cons, if_neg ha]
      exact ih

/-! ### C9: duplicate-username Register -/

/-- C9: a Register event whose username already exists produces only an
AuthError to the caller; the shared state and the session's
authentication state are completely unchanged. -/
theorem c9_register_duplicate (g : GState) (sid : SockId) (cur : Option String)
    (inp : StepInput) (username password : String) (du : DbUser)
    (h : get_user_by_username g.db username = some du) :
    step g sid cur inp (ClientMessage.Register username password) =
      ⟨g, cur, [(sid, ServerMessage.AuthError msg_username_exists)]⟩ := by
  simp [step, h]

/-- Witness for C9 at a concrete state whose store already holds alice. -/
theorem c9_register_duplicate_witness :
    step gW 0 none inpW (ClientMessage.Register unameA pwP) =
      ⟨gW, none, [(0, ServerMessage.AuthError msg_username_exists)]⟩ :=
  c9_register_duplicate gW 0 none inpW unameA pwP duA (by decide)

/-! ### C3: passwordless login bypasses verification -/

/-- C3: for an account already in the durable store, a Login with absent
password yields LoginSuccess and authenticates the session as that
account's id, installing the session's channel in the Socket Directory.
The stored password hash (du.password_hash) and the bcrypt verify oracle
(inp.verify) are universally quantified and never consulted: the
conclusion holds whatever they are. -/
theorem c3_passwordless_login (g : GState) (sid : SockId) (cur : Option String)
    (inp : StepInput) (username : String) (du : DbUser)
    (h : get_user_by_username g.db username = some du) :
    (step g sid cur inp (ClientMessage.Login username none)).cur = some du.id ∧
    (step g sid cur inp (ClientMessage.Login username none)).out.head? =
      some (sid, ServerMessage.LoginSuccess ⟨du.id, du.username, true, inp.now⟩) ∧
    (step g sid cur inp (ClientMessage.Login username none)).g.user_sockets =
      insertA g.user_sockets du.id sid := by
  simp [step, h, authSuccess]

/-- Witness for C3: alice's stored hash is hashH, yet a None-password login
succeeds. -/
theorem c3_passwordless_login_witness :
    (step gW 0 none inpW (ClientMessage.Login unameA none)).cur = some duA.id ∧
    (step gW 0 none inpW (ClientMessage.Login unameA none)).out.head? =
      some (0, ServerMessage.LoginSuccess ⟨duA.id, duA.username, true, inpW.now⟩) ∧
    (step gW 0 none inpW (ClientMessage.Login unameA none)).g.user_sockets =
      insertA gW.user_sockets duA.id 0 :=
  c3_passwordless_login gW 0 none inpW unameA duA (by decide)

/-! ### C8: failed durable write of a send is logged only -/

/-- C8: when save_message fails, the database is unchanged, yet the live
fan-out of the SendMessage branch is exactly the same as in the success
case: the recipient (if registered) and the sender both still receive the
NewMessage event, and the dispatcher produces no error and no
session-terminating effect. -/
theorem c8_save_failure (g : GState) (sid : SockId) (from_id : String) (inp : StepInput)
    (to_user_id content : String) (fd fn ft : Option String) (ad : Option Nat)
    (h : inp.saveOk = false) :
    (step g sid (some from_id) inp
        (ClientMessage.SendMessage to_user_id content fd fn ft ad)).g = g ∧
    (step g sid (some from_id) inp
        (ClientMessage.SendMessage to_user_id content fd fn ft ad)).out =
      (step g sid (some from_id) { inp with saveOk := true }
        (ClientMessage.SendMessage to_user_id content fd fn ft ad)).out := by
  constructor
  · simp [step, h]
  · simp [step, h]

/-- Witness for C8: a failing save (inpWF) leaves the state intact and
fans out exactly as the successful save would. -/
theorem c8_save_failure_witness :
    (step gW 0 (some uidA) inpWF
        (ClientMessage.SendMessage uidB contentHi none none none none)).g = gW ∧
    (step gW 0 (some uidA) inpWF
        (ClientMessage.SendMessage uidB contentHi none none none none)).out =
      (step gW 0 (some uidA) { inpWF with saveOk := true }
        (ClientMessage.SendMessage uidB contentHi none none none none)).out :=
  c8_save_failure gW 0 uidA inpWF uidB contentHi none none none none rfl

/-! ### C1: dispatch while unauthenticated -/

/-- C1 (amended): while the session is unauthenticated, every inbound event
other than Register, Login, MarkAsRead and GetOnlineUsers is ignored
outright (state, session and outputs unchanged); but MarkAsRead still
performs the mark-read persistence call (emitting nothing), and
GetOnlineUsers still returns the online-users snapshot to the caller. -/
theorem c1_unauthenticated_dispatch (g : GState) (sid : SockId) (inp : StepInput)
    (ev : ClientMessage) :
    (unauthIgnored ev = true → step g sid none inp ev = ⟨g, none, []⟩) ∧
    (∀ message_id, step g sid none inp (ClientMessage.MarkAsRead message_id) =
      ⟨{ g with db := mark_message_read g.db message_id }, none, []⟩) ∧
    (step g sid none inp ClientMessage.GetOnlineUsers =
      ⟨g, none, [(sid, ServerMessage.OnlineUsers (g.online_users.map (fun p => p.2)))]⟩) := by
  refine ⟨?_, fun message_id => rfl, rfl⟩
  intro hev
  cases ev <;> first
    | rfl
    | exact absurd hev (by simp [unauthIgnored])

/-- Witness for C1 (amended) at a concrete unauthenticated session. -/
theorem c1_unauthenticated_dispatch_witness :
    step gW 0 none inpW (ClientMessage.Typing uidB true) = ⟨gW, none, []⟩ :=
  (c1_unauthenticated_dispatch gW 0 inpW (ClientMessage.Typing uidB true)).1 rfl

/-- Counterexample to C1 as stated: with an unauthenticated session,
MarkAsRead mutates the durable store (a persistence call and a state
transition), and GetOnlineUsers emits an outbound event to the caller. -/
theorem c1_counterexample :
    ¬ ((step gW 0 none inpW (ClientMessage.MarkAsRead midM)).g = gW ∧
       (step gW 0 none inpW (ClientMessage.MarkAsRead midM)).out = []) ∧
    (step gW 0 none inpW ClientMessage.GetOnlineUsers).out ≠ [] := by
  constructor
  · intro hc
    have hg := hc.1
    have : (step gW 0 none inpW (ClientMessage.MarkAsRead midM)).g.db.messages =
        gW.db.messages := by rw [hg]
    exact absurd this (by decide)
  · decide

/-! ### C2: Socket Directory invariant -/

theorem authSuccessOf_eq_none (out : List (SockId × ServerMessage))
    (h : ∀ p ∈ out, authUser p.2 = none) : authSuccessOf out = none := by
  induction out with
  | nil => rfl
  | cons a t ih =>
    have ha := h a (List.mem_cons_self a t)
    simp only [authSuccessOf, List.findSome?_cons, ha, Option.map_none']
    exact ih (fun p hp => h p (List.mem_cons_of_mem a hp))

theorem authSuccessOf_map_eq_none {α : Type} (l : List α) (f : α → SockId × ServerMessage)
    (h : ∀ a, authUser (f a).2 = none) : authSuccessOf (l.map f) = none := by
  apply authSuccessOf_eq_none
  intro p hp
  rcases List.mem_map.mp hp with ⟨a, -, rfl⟩
  exact h a

theorem nodupKeys_insertA {κ α : Type} [DecidableEq κ] (l : List (κ × α)) (k : κ) (v : α)
    (h : (l.map Prod.fst).Nodup) : ((insertA l k v).map Prod.fst).Nodup := by
  simp only [insertA, List.map_cons, List.nodup_cons]
  constructor
  · intro hmem
    rcases List.mem_map.mp hmem with ⟨p, hp, hpk⟩
    exact absurd hpk (of_decide_eq_true (List.mem_filter.mp hp).2)
  · exact List.Nodup.sublist (List.Sublist.map Prod.fst (List.filter_sublist l)) h

theorem nodupKeys_ghostDir (outs : List (List (SockId × ServerMessage)))
    (d : List (String × SockId)) (h : (d.map Prod.fst).Nodup) :
    ((ghostDir outs d).map Prod.fst).Nodup := by
  induction outs generalizing d with
  | nil => exact h
  | cons out rest ih =>
    rw [ghostDir]
    cases hA : authSuccessOf out with
    | none => exact ih d h
    | some val =>
      obtain ⟨uid, ch⟩ := val
      exact ih _ (nodupKeys_insertA d uid ch h)

theorem applyAuth_none (d : List (String × SockId)) : applyAuth d none = d := rfl

theorem findA_ghostDir (outs : List (List (SockId × ServerMessage)))
    (d : List (String × SockId)) (uid : String) :
    findA (ghostDir outs d) uid =
      (match lastAuthChan outs uid with
       | some c => some c
       | none => findA d uid) := by
  induction outs generalizing d with
  | nil => rfl
  | cons out rest ih =>
    rw [ghostDir, lastAuthChan]
    cases hA : authSuccessOf out with
    | none =>
      rw [applyAuth_none, ih]
      cases lastAuthChan rest uid <;> rfl
    | some val =>
      obtain ⟨u, c⟩ := val
      rw [show applyAuth d (some (u, c)) = insertA d u c from rfl, ih]
      by_cases hu : u = uid
      · subst hu
        cases lastAuthChan rest u <;> simp [findA_insertA]
      · cases lastAuthChan rest uid <;> simp [findA_insertA, hu]

/-- Each dispatcher step changes the Socket Directory exactly as its own
observable authentication outcome dictates: a step whose output contains a
RegisterSuccess/LoginSuccess event (sent to channel ch for identity uid)
replaces the directory entry for uid with ch, and any other step leaves
the directory untouched. -/
theorem step_sockets (g : GState) (sid : SockId) (cur : Option String) (inp : StepInput)
    (ev : ClientMessage) :
    (step g sid cur inp ev).g.user_sockets =
      applyAuth g.user_sockets (authSuccessOf (step g sid cur inp ev).out) := by
  cases ev <;> simp only [step] <;> (repeat' split) <;>
    first
      | rfl
      | (simp [applyAuth, authSuccessOf, authUser, List.findSome?_cons]; done)
      | (simp [applyAuth, authSuccess, authSuccessOf, authUser, List.findSome?_cons]; done)
      | (rw [authSuccessOf_eq_none]
         · rfl
         · intro p hp
           rcases List.mem_map.mp hp with ⟨a, -, rfl⟩
           rfl)

theorem runTrace_sockets : ∀ (tr : List TraceStep) (g : GState)
    (sess : List (SockId × Option String)),
    (runTrace g sess tr).1.user_sockets =
      ghostDir (runTrace g sess tr).2.2 g.user_sockets := by
  intro tr
  induction tr with
  | nil => intro g sess; rfl
  | cons t rest ih =>
    intro g sess
    simp only [runTrace]
    rw [ghostDir, ih]
    congr 1
    exact step_sockets g t.sid _ t.inp t.msg

/-- C2: over every trace of inbound events across any set of sessions
starting from startup (empty registries, arbitrary durable store), the
Socket Directory has no duplicate identity keys, and the entry of every
identity is exactly the channel installed by the most recent successful
authentication (RegisterSuccess/LoginSuccess) for that identity in the
trace - in particular a later successful authentication for the same
identity replaces the earlier entry. -/
theorem c2_socket_directory (tr : List TraceStep) (db0 : Db) :
    (((runTrace ⟨db0, [], []⟩ [] tr).1.user_sockets.map Prod.fst).Nodup) ∧
    (∀ uid : String, findA (runTrace ⟨db0, [], []⟩ [] tr).1.user_sockets uid =
      lastAuthChan (runTrace ⟨db0, [], []⟩ [] tr).2.2 uid) := by
  constructor
  · rw [runTrace_sockets]
    exact nodupKeys_ghostDir _ _ (by simp)
  · intro uid
    rw [runTrace_sockets, findA_ghostDir]
    cases lastAuthChan (runTrace ⟨db0, [], []⟩ [] tr).2.2 uid <;> rfl

/-- Witness for C2: the same identity authenticates on two different
connections; the directory invariant holds of the resulting state. -/
theorem c2_socket_directory_witness :
    (((runTrace ⟨dbW, [], []⟩ [] trW).1.user_sockets.map Prod.fst).Nodup) ∧
    findA (runTrace ⟨dbW, [], []⟩ [] trW).1.user_sockets uidA =
      lastAuthChan (runTrace ⟨dbW, [], []⟩ [] trW).2.2 uidA := by
  have h := c2_socket_directory trW dbW
  exact ⟨h.1, h.2 uidA⟩

/-! ### C4: SendMessage delivery and persistence -/

/-- C4: for an authenticated sender, SendMessage persists a message built
from the freshly generated id and the current timestamp; the NewMessage
event goes to the recipient's registered channel exactly when the
recipient is in the Socket Directory, and the identical NewMessage is
always echoed to the sender's own channel; and with the recipient offline
the persisted message is still returned by a subsequent history fetch for
that pair (offset 0, limit = total count). -/
theorem c4_send_message (g : GState) (sid : SockId) (from_id : String) (inp : StepInput)
    (to_user_id content : String) (fd fn ft : Option String) (ad : Option Nat)
    (hsave : inp.saveOk = true)
    (hfresh : ∀ m ∈ g.db.messages, m.id ≠ inp.freshId) :
    (step g sid (some from_id) inp
        (ClientMessage.SendMessage to_user_id content fd fn ft ad)).g.db.messages =
      g.db.messages ++
        [⟨inp.freshId, from_id, to_user_id, content, inp.now, false, fd, fn, ft, ad⟩] ∧
    (step g sid (some from_id) inp
        (ClientMessage.SendMessage to_user_id content fd fn ft ad)).out =
      (match findA g.user_sockets to_user_id with
       | some ch => [(ch, ServerMessage.NewMessage
           ⟨inp.freshId, from_id, to_user_id, content, inp.now, false, fd, fn, ft, ad, []⟩)]
       | none => []) ++
      [(sid, ServerMessage.NewMessage
         ⟨inp.freshId, from_id, to_user_id, content, inp.now, false, fd, fn, ft, ad, []⟩)] ∧
    (∀ m ∈ g.db.messages, m.id ≠ inp.freshId) ∧
    (findA g.user_sockets to_user_id = none →
      (⟨inp.freshId, from_id, to_user_id, content, inp.now, false,
          fd, fn, ft, ad⟩ : DbMessage) ∈
        get_messages_between_users
          (step g sid (some from_id) inp
            (ClientMessage.SendMessage to_user_id content fd fn ft ad)).g.db
          from_id to_user_id
          (get_message_count_between_users
            (step g sid (some from_id) inp
              (ClientMessage.SendMessage to_user_id content fd fn ft ad)).g.db
            from_id to_user_id) 0) := by
  have hmsgs : (step g sid (some from_id) inp
      (ClientMessage.SendMessage to_user_id content fd fn ft ad)).g.db.messages =
      g.db.messages ++
        [⟨inp.freshId, from_id, to_user_id, content, inp.now, false, fd, fn, ft, ad⟩] := by
    simp [step, hsave, save_message]
  refine ⟨hmsgs, by simp [step, hsave], hfresh, ?_⟩
  intro _
  have hmem : (⟨inp.freshId, from_id, to_user_id, content, inp.now, false,
      fd, fn, ft, ad⟩ : DbMessage) ∈
      convBetween (step g sid (some from_id) inp
        (ClientMessage.SendMessage to_user_id content fd fn ft ad)).g.db
        from_id to_user_id := by
    unfold convBetween
    rw [hmsgs, List.filter_append]
    refine List.mem_append_right _ ?_
    simp
  unfold get_messages_between_users
  have hle : ((convBetween (step g sid (some from_id) inp
      (ClientMessage.SendMessage to_user_id content fd fn ft ad)).g.db
      from_id to_user_id).insertionSort tsDesc).length ≤
      get_message_count_between_users (step g sid (some from_id) inp
        (ClientMessage.SendMessage to_user_id content fd fn ft ad)).g.db
        from_id to_user_id := by
    rw [List.length_insertionSort]
    exact Nat.le_refl _
  rw [List.drop_zero, List.take_of_length_le hle]
  exact ((List.perm_insertionSort tsDesc _).mem_iff).mpr hmem

/-- Witness for C4: alice sends to bob while bob is offline; the message is
persisted, echoed to alice only, and returned by the history fetch. -/
theorem c4_send_message_witness :
    (step gW 0 (some uidA) inpW evW).g.db.messages = gW.db.messages ++ [dmW] ∧
    (step gW 0 (some uidA) inpW evW).out = [(0, ServerMessage.NewMessage cmW)] ∧
    mW.id ≠ inpW.freshId ∧
    dmW ∈ get_messages_between_users (step gW 0 (some uidA) inpW evW).g.db uidA uidB
      (get_message_count_between_users (step gW 0 (some uidA) inpW evW).g.db uidA uidB)
      0 := by
  have h := c4_send_message gW 0 uidA inpW uidB contentHi none none none none rfl
    (by decide)
  exact ⟨h.1, h.2.1, h.2.2.1 mW (by decide), h.2.2.2 (by decide)⟩

/-! ### C6: reaction upsert/removal round trips -/

theorem filter_mid_nil (l : List Reaction) (m : String)
    (h : ∀ r ∈ l, r.message_id ≠ m) :
    l.filter (fun r => decide (r.message_id = m)) = [] := by
  induction l with
  | nil => rfl
  | cons a t ih =>
    rw [List.filter_cons, if_neg (by simp [h a (List.mem_cons_self a t)])]
    exact ih (fun r hr => h r (List.mem_cons_of_mem a hr))

theorem filter_key_of_filter_not_key (l : List Reaction) (m u : String) :
    ((l.filter (fun r => decide (¬(r.message_id = m ∧ r.user_id = u)))).filter
      (fun r => decide (r.message_id = m ∧ r.user_id = u))) = [] := by
  induction l with
  | nil => rfl
  | cons a t ih =>
    rw [List.filter_cons]
    by_cases ha : a.message_id = m ∧ a.user_id = u
    · rw [if_neg (by simp only [decide_eq_true_eq]; exact not_not_intro ha)]
      exact ih
    · rw [if_pos (by simp only [decide_eq_true_eq]; exact ha), List.filter_cons,
        if_neg (by simp only [decide_eq_true_eq]; exact ha)]
      exact ih

theorem nodup_uid_of_nodup_pair (lf : List Reaction) (m : String)
    (hm : ∀ r ∈ lf, r.message_id = m)
    (h : (lf.map (fun r => (r.message_id, r.user_id))).Nodup) :
    (lf.map (fun r => r.user_id)).Nodup := by
  induction lf with
  | nil => simp
  | cons a t ih =>
    simp only [List.map_cons, List.nodup_cons] at h ⊢
    refine ⟨?_, ih (fun r hr => hm r (List.mem_cons_of_mem _ hr)) h.2⟩
    intro hmem
    rcases List.mem_map.mp hmem with ⟨r, hr, huid⟩
    apply h.1
    apply List.mem_map.mpr
    refine ⟨r, hr, ?_⟩
    rw [hm r (List.mem_cons_of_mem _ hr), hm a (List.mem_cons_self _ _), huid]

/-- C6: from a state with no reactions on message m, AddReaction(m, u, e)
then GetReactions(m) yields exactly the map with the single entry u -> e;
a second AddReaction(m, u, e2) by the same user replaces it; RemoveReaction
deletes the (m, u) pair entirely. In any state, after AddReaction there is
exactly one stored row for (m, u); after RemoveReaction there is none; and
the at-most-one-row-per-(message, user) invariant is preserved by both
operations and makes every per-message reaction map hold at most one entry
per user identity. -/
theorem c6_reaction_roundtrip (db : Db) (m u e e2 : String)
    (h : ∀ r ∈ db.reactions, r.message_id ≠ m) :
    get_reactions (add_reaction db m u e) m = [(u, e)] ∧
    get_reactions (add_reaction (add_reaction db m u e) m u e2) m = [(u, e2)] ∧
    get_reactions (remove_reaction (add_reaction db m u e) m u) m = [] ∧
    (∀ db' : Db, ((add_reaction db' m u e).reactions.filter (fun r =>
        decide (r.message_id = m ∧ r.user_id = u))).length = 1) ∧
    (∀ db' : Db, ∀ r ∈ (remove_reaction db' m u).reactions,
        ¬(r.message_id = m ∧ r.user_id = u)) ∧
    (∀ db' : Db, ReactionsUnique db' →
        ReactionsUnique (add_reaction db' m u e2) ∧
        ReactionsUnique (remove_reaction db' m u)) ∧
    (∀ db' : Db, ∀ mid : String, ReactionsUnique db' →
        ((get_reactions db' mid).map Prod.fst).Nodup) := by
  have hA : ∀ r ∈ db.reactions.filter (fun r =>
      decide (¬(r.message_id = m ∧ r.user_id = u))), r.message_id ≠ m :=
    fun r hr => h r (List.mem_filter.mp hr).1
  have hB : ∀ r ∈ (add_reaction db m u e).reactions.filter (fun r =>
      decide (¬(r.message_id = m ∧ r.user_id = u))), r.message_id ≠ m := by
    intro r hr
    rcases List.mem_filter.mp hr with ⟨hmem, hkey⟩
    rcases List.mem_append.mp hmem with hleft | hright
    · exact h r (List.mem_filter.mp hleft).1
    · exfalso
      have : r = ⟨m, u, e⟩ := by simpa using hright
      subst this
      simp at hkey
  refine ⟨?_, ?_, ?_, ?_, ?_, ?_, ?_⟩
  · simp only [get_reactions]
    rw [show (add_reaction db m u e).reactions =
        db.reactions.filter (fun r => decide (¬(r.message_id = m ∧ r.user_id = u))) ++
          [⟨m, u, e⟩] from rfl,
      List.filter_append, filter_mid_nil _ _ hA]
    simp
  · simp only [get_reactions]
    rw [show (add_reaction (add_reaction db m u e) m u e2).reactions =
        (add_reaction db m u e).reactions.filter (fun r =>
          decide (¬(r.message_id = m ∧ r.user_id = u))) ++ [⟨m, u, e2⟩] from rfl,
      List.filter_append, filter_mid_nil _ _ hB]
    simp
  · simp only [get_reactions]
    rw [show (remove_reaction (add_reaction db m u e) m u).reactions =
        (add_reaction db m u e).reactions.filter (fun r =>
          decide (¬(r.message_id = m ∧ r.user_id = u))) from rfl,
      filter_mid_nil _ _ hB]
    rfl
  · intro db'
    rw [show (add_reaction db' m u e).reactions =
        db'.reactions.filter (fun r => decide (¬(r.message_id = m ∧ r.user_id = u))) ++
          [⟨m, u, e⟩] from rfl,
      List.filter_append, filter_key_of_filter_not_key]
    simp
  · intro db' r hr
    exact of_decide_eq_true (List.mem_filter.mp hr).2
  · intro db' hu
    constructor
    · simp only [ReactionsUnique, add_reaction, List.map_append, List.nodup_append]
      have hsub : ((db'.reactions.filter (fun r =>
            decide (¬(r.message_id = m ∧ r.user_id = u)))).map
            (fun r => (r.message_id, r.user_id))).Sublist
          (db'.reactions.map (fun r => (r.message_id, r.user_id))) :=
        List.Sublist.map _ (List.filter_sublist _)
      refine ⟨hu.sublist hsub, by simp, ?_⟩
      intro p hp hq
      simp only [List.map_cons, List.map_nil, List.mem_singleton] at hq
      subst hq
      rcases List.mem_map.mp hp with ⟨r, hr, hpair⟩
      have hcond := (List.mem_filter.mp hr).2
      have h1 : r.message_id = m := congrArg Prod.fst hpair
      have h2 : r.user_id = u := congrArg Prod.snd hpair
      simp [h1, h2] at hcond
    · apply hu.sublist
      exact List.Sublist.map _ (List.filter_sublist _)
  · intro db' mid hu
    have hm0 : ∀ r ∈ db'.reactions.filter (fun r => decide (r.message_id = mid)),
        r.message_id = mid := by
      intro r hr
      have := (List.mem_filter.mp hr).2
      simpa using this
    have hpairs : ((db'.reactions.filter (fun r =>
          decide (r.message_id = mid))).map
          (fun r => (r.message_id, r.user_id))).Nodup :=
      hu.sublist (List.Sublist.map _ (List.filter_sublist _))
    have := nodup_uid_of_nodup_pair _ mid hm0 hpairs
    simpa [get_reactions, List.map_map, Function.comp] using this

/-- Witness for C6 at the empty reaction store. -/
theorem c6_reaction_roundtrip_witness :
    get_reactions (add_reaction dbW midM uidA emE1) midM = [(uidA, emE1)] ∧
    get_reactions (add_reaction (add_reaction dbW midM uidA emE1) midM uidA emE2) midM =
      [(uidA, emE2)] ∧
    get_reactions (remove_reaction (add_reaction dbW midM uidA emE1) midM uidA) midM = [] ∧
    ((add_reaction dbW midM uidA emE1).reactions.filter (fun r =>
        decide (r.message_id = midM ∧ r.user_id = uidA))).length = 1 ∧
    ReactionsUnique (add_reaction dbW midM uidA emE2) := by
  have h := c6_reaction_roundtrip dbW midM uidA emE1 emE2 (by decide)
  exact ⟨h.1, h.2.1, h.2.2.1, h.2.2.2.1 dbW,
    (h.2.2.2.2.2.1 dbW (by exact List.Pairwise.nil)).1⟩

/-! ### C10: mark-as-read idempotence and monotonicity -/

theorem mark_map_idem (l : List DbMessage) (mid : String) :
    (l.map (fun m => if m.id = mid then { m with read := true } else m)).map
      (fun m => if m.id = mid then { m with read := true } else m) =
    l.map (fun m => if m.id = mid then { m with read := true } else m) := by
  induction l with
  | nil => rfl
  | cons a t ih =>
    simp only [List.map_cons]
    rw [ih]
    congr 1
    by_cases h : a.id = mid
    · simp [h]
    · simp [h]

theorem mark_read_mono (db : Db) (mid : String) (m : DbMessage) (hm : m ∈ db.messages)
    (hr : m.read = true) :
    ∃ m' ∈ (mark_message_read db mid).messages, m'.id = m.id ∧ m'.read = true := by
  refine ⟨if m.id = mid then { m with read := true } else m, ?_, ?_, ?_⟩
  · simp only [mark_message_read]
    exact List.mem_map.mpr ⟨m, hm, rfl⟩
  · by_cases h : m.id = mid <;> simp [h]
  · by_cases h : m.id = mid <;> simp [h, hr]

/-- C10: mark_message_read is idempotent (marking the same id twice equals
marking it once, with no error), every message matching the id is read
afterwards, and the read flag is monotonic across the whole core: no
dispatcher event and no disconnect ever reverts a message's read flag from
true to false (the message with that id is still present and still read). -/
theorem c10_mark_read_monotonic :
    (∀ db mid, mark_message_read (mark_message_read db mid) mid =
        mark_message_read db mid) ∧
    (∀ db mid, ∀ m ∈ (mark_message_read db mid).messages, m.id = mid → m.read = true) ∧
    (∀ (g : GState) (sid : SockId) (cur : Option String) (inp : StepInput)
        (ev : ClientMessage), ∀ m ∈ g.db.messages, m.read = true →
        ∃ m' ∈ (step g sid cur inp ev).g.db.messages, m'.id = m.id ∧ m'.read = true) ∧
    (∀ (g : GState) (cur : Option String) (now : Nat),
        (disconnect g cur now).1.db.messages = g.db.messages) := by
  refine ⟨?_, ?_, ?_, ?_⟩
  · intro db mid
    cases db with
    | mk us ms rs =>
      simp only [mark_message_read]
      congr 1
      exact mark_map_idem ms mid
  · intro db mid m hm hid
    simp only [mark_message_read, List.mem_map] at hm
    obtain ⟨m0, hm0, rfl⟩ := hm
    by_cases h : m0.id = mid
    · simp [h]
    · simp [h] at hid
  · intro g sid cur inp ev m hm hr
    have base : ∀ (l : List DbMessage), m ∈ l →
        ∃ m' ∈ l, m'.id = m.id ∧ m'.read = true :=
      fun l hl => ⟨m, hl, rfl, hr⟩
    cases ev <;> simp only [step] <;> (repeat' split) <;>
      first
        | exact base _ hm
        | exact base _ (List.mem_append_left _ hm)
        | exact mark_read_mono _ _ _ hm hr
  · intro g cur now
    cases cur <;> simp [disconnect, update_last_seen]

/-- Witness for C10 at a concrete store holding one read message. -/
theorem c10_mark_read_monotonic_witness :
    mark_message_read (mark_message_read dbW midM) midM = mark_message_read dbW midM ∧
    mR.read = true ∧
    (∃ m' ∈ (step gR 0 (some uidA) inpW (ClientMessage.MarkAsRead midM)).g.db.messages,
        m'.id = mR.id ∧ m'.read = true) ∧
    (disconnect gR (some uidA) 5).1.db.messages = gR.db.messages := by
  have h := c10_mark_read_monotonic
  exact ⟨h.1 dbW midM,
    h.2.1 gR.db midM mR (by decide) (by decide),
    h.2.2.1 gR 0 (some uidA) inpW (ClientMessage.MarkAsRead midM) mR (by decide) rfl,
    h.2.2.2 gR (some uidA) 5⟩

/-! ### C7: the disconnect path -/

/-- C7 (amended): when an authenticated session terminates, the disconnect
path removes the identity from the Socket Directory and from the Presence
Registry (absence is how the in-memory registry represents offline: the
derived presence view then reports the user with online = false and the
persisted last-seen), persists last-seen, and broadcasts a UserOffline
event to every remaining registered socket. -/
theorem c7_disconnect (g : GState) (uid : String) (now : Nat) :
    findA (disconnect g (some uid) now).1.user_sockets uid = none ∧
    findA (disconnect g (some uid) now).1.online_users uid = none ∧
    (disconnect g (some uid) now).1.db.users =
      g.db.users.map (fun u => if u.id = uid then { u with last_seen := now } else u) ∧
    (∀ v ∈ get_users (disconnect g (some uid) now).1, v.id = uid →
        v.online = false ∧ v.last_seen = now) ∧
    (disconnect g (some uid) now).2 =
      (removeA g.user_sockets uid).map (fun p => (p.2, ServerMessage.UserOffline uid)) := by
  refine ⟨findA_removeA_self _ _, findA_removeA_self _ _, rfl, ?_, rfl⟩
  intro v hv hid
  simp only [get_users, List.mem_map] at hv
  obtain ⟨du, hdu, rfl⟩ := hv
  simp only at hid
  constructor
  · simp only [disconnect]
    rw [hid, findA_removeA_self]
    rfl
  · simp only [disconnect, update_last_seen, List.mem_map] at hdu
    obtain ⟨u0, _, rfl⟩ := hdu
    by_cases h0 : u0.id = uid
    · simp [h0]
    · simp only [if_neg h0] at hid ⊢
      exact absurd hid h0

/-- Witness for C7 (amended) at a concrete single-user state. -/
theorem c7_disconnect_witness :
    findA (disconnect gW7 (some uidA) 5).1.user_sockets uidA = none ∧
    findA (disconnect gW7 (some uidA) 5).1.online_users uidA = none ∧
    (disconnect gW7 (some uidA) 5).1.db.users =
      gW7.db.users.map (fun u => if u.id = uidA then { u with last_seen := 5 } else u) ∧
    (vW7.online = false ∧ vW7.last_seen = 5) ∧
    (disconnect gW7 (some uidA) 5).2 =
      (removeA gW7.user_sockets uidA).map
        (fun p => (p.2, ServerMessage.UserOffline uidA)) := by
  have h := c7_disconnect gW7 uidA 5
  exact ⟨h.1, h.2.1, h.2.2.1, h.2.2.2.1 vW7 (by decide) rfl, h.2.2.2.2⟩

/-! ### C5: pagination completeness -/

/-- C5: for the N persisted messages between two identities, the
client-driven loop that fetches GetMessageHistory pages with limit L at
offsets 0, L, 2L, ... until has_more is false yields exactly the N
messages (a permutation of the conversation's ids) with no duplicates;
every returned page is in chronological (timestamp-ascending) order,
being the reversal of the newest-first query page; has_more is computed
as (offset + limit) < total_count; and each fetch of the loop is exactly
what the dispatcher sends for a GetMessageHistory event. L ≥ 1 is
required for the loop to terminate, and message ids are assumed pairwise
distinct (they are primary keys). -/
theorem c5_pagination (db : Db) (u1 u2 : String) (L : Nat) (hL : 1 ≤ L)
    (hnd : (db.messages.map (fun m => m.id)).Nodup) :
    ((historyLoop db u1 u2 L 0 ((convBetween db u1 u2).length + 1)).map
        (fun c => c.id)).Perm ((convBetween db u1 u2).map (fun m => m.id)) ∧
    ((historyLoop db u1 u2 L 0 ((convBetween db u1 u2).length + 1)).map
        (fun c => c.id)).Nodup ∧
    (∀ off : Nat, List.Sorted (fun a b : ChatMessage => a.timestamp ≤ b.timestamp)
        (messageHistoryResponse db u1 u2 L off).1) ∧
    (∀ off : Nat, (messageHistoryResponse db u1 u2 L off).2.2 =
        decide (off + L < get_message_count_between_users db u1 u2)) ∧
    (∀ (g : GState) (sid : SockId) (inp : StepInput) (off : Nat),
        step g sid (some u1) inp
          (ClientMessage.GetMessageHistory u2 (some L) (some off)) =
          ⟨g, some u1, [(sid, ServerMessage.MessageHistory
            (messageHistoryResponse g.db u1 u2 L off).1
            (messageHistoryResponse g.db u1 u2 L off).2.1
            (messageHistoryResponse g.db u1 u2 L off).2.2)]⟩) := by
  have hfuel : (convBetween db u1 u2).length ≤
      0 + ((convBetween db u1 u2).length + 1) * L := by
    calc (convBetween db u1 u2).length
        ≤ ((convBetween db u1 u2).length + 1) * 1 := by omega
      _ ≤ ((convBetween db u1 u2).length + 1) * L := Nat.mul_le_mul_left _ hL
      _ = 0 + ((convBetween db u1 u2).length + 1) * L := (Nat.zero_add _).symm
  have hperm := historyLoop_perm db u1 u2 L hL ((convBetween db u1 u2).length + 1) 0 hfuel
  rw [List.drop_zero] at hperm
  have hpermAll := hperm.trans (List.Perm.map _ (List.perm_insertionSort tsDesc _))
  have hconv : ((convBetween db u1 u2).map (fun m => m.id)).Nodup :=
    List.Nodup.sublist (List.Sublist.map _ (List.filter_sublist _)) hnd
  refine ⟨hpermAll, (hpermAll.nodup_iff).mpr hconv, ?_, fun off => rfl,
    fun g sid inp off => rfl⟩
  intro off
  have hs : List.Sorted tsDesc ((convBetween db u1 u2).insertionSort tsDesc) :=
    List.sorted_insertionSort tsDesc _
  have hseg : List.Pairwise tsDesc
      ((((convBetween db u1 u2).insertionSort tsDesc).drop off).take L) :=
    List.Pairwise.sublist ((List.take_sublist _ _).trans (List.drop_sublist _ _)) hs
  have hmap : List.Pairwise (fun a b : ChatMessage => b.timestamp ≤ a.timestamp)
      (((((convBetween db u1 u2).insertionSort tsDesc).drop off).take L).map
        (fun m => db_message_to_chat_message m (batchLookup db m.id))) :=
    List.Pairwise.map _ (fun a b hr => hr) hseg
  exact List.pairwise_reverse.mpr hmap

/-- Witness for C5: three messages between alice and bob, fetched with
limit 2 (two pages). -/
theorem c5_pagination_witness :
    ((historyLoop dbW5 uidA uidB 2 0 ((convBetween dbW5 uidA uidB).length + 1)).map
        (fun c => c.id)).Perm ((convBetween dbW5 uidA uidB).map (fun m => m.id)) ∧
    ((historyLoop dbW5 uidA uidB 2 0 ((convBetween dbW5 uidA uidB).length + 1)).map
        (fun c => c.id)).Nodup ∧
    List.Sorted (fun a b : ChatMessage => a.timestamp ≤ b.timestamp)
      (messageHistoryResponse dbW5 uidA uidB 2 0).1 ∧
    (messageHistoryResponse dbW5 uidA uidB 2 0).2.2 =
      decide (0 + 2 < get_message_count_between_users dbW5 uidA uidB) ∧
    step gW 0 (some uidA) inpW
        (ClientMessage.GetMessageHistory uidB (some 2) (some 0)) =
      ⟨gW, some uidA, [(0, ServerMessage.MessageHistory
        (messageHistoryResponse gW.db uidA uidB 2 0).1
        (messageHistoryResponse gW.db uidA uidB 2 0).2.1
        (messageHistoryResponse gW.db uidA uidB 2 0).2.2)]⟩ := by
  have h := c5_pagination dbW5 uidA uidB 2 (by decide) (by decide)
  exact ⟨h.1, h.2.1, h.2.2.1 0, h.2.2.2.1 0, h.2.2.2.2 gW 0 inpW 0⟩

/-- Counterexample to C7 as stated: after the disconnect the Presence
Registry holds no record for the identity at all, so no PresenceRecord had
its online flag flipped to false - the record was removed instead. -/
theorem c7_counterexample :
    ¬ ∃ u : User, findA (disconnect gW7 (some uidA) 5).1.online_users uidA = some u ∧
      u.online = false ∧ u.last_seen = 5 := by
  rintro ⟨u, hu, -, -⟩
  have hnone : findA (disconnect gW7 (some uidA) 5).1.online_users uidA = none := by
    decide
  rw [hnone] at hu
  exact Option.noConfusion hu

end Chat
